import Mathlib

/-!
Shallow embedding of the vhdl_lang semantic-frontend core:
the standard-package implicit-declaration synthesizer
(vhdl_lang/src/analysis/standard.rs) and the completion subsystem
(vhdl_lang/src/analysis/completion.rs).

Machine identities (arena entity ids) are modelled as `Nat`; source
positions are dropped from entities because no verified property
depends on them.  External collaborators (the arena, the named-entity
model, the tokenizer, the library manager) are modelled from the
interface the specification gives for them; everything else is a
direct transcription of the source.
-/

/-- ast::Operator, restricted to the operators used by the synthesizer. -/
inductive Operator where
  | eq | ne | lt | lte | gt | gte
  | plus | minus | abs
  | concat
  | and | or | nand | nor | xor | xnor | not
  deriving DecidableEq

/-- ast::Designator: an identifier symbol or an overloadable operator symbol. -/
inductive Designator where
  | identifier (s : String)
  | operatorSymbol (op : Operator)
  deriving DecidableEq

/-- ast::ObjectClass (`variable` is a Lean keyword, hence `var`). -/
inductive ObjectClass where
  | constant | signal | var | sharedVariable
  deriving DecidableEq

/-- ast::Mode (`in` is a Lean keyword, hence `in_`). -/
inductive Mode where
  | in_ | out | inout | buffer | linkage
  deriving DecidableEq

/-- named_entity.rs UniversalType. -/
inductive UniversalType where
  | integer | real
  deriving DecidableEq

mutual

/-- named_entity.rs `Type`: the tagged type-kind classification.
`Array` keeps only the shape of its index list (its length is all the
synthesizer inspects) and its element type.  `protected` and `alias`
are Lean keywords, hence the `T` suffixes. -/
inductive TypeKind where
  | universal (u : UniversalType)
  | integer
  | real
  | enum
  | physical
  | record
  | array (indexes : List Unit) (elem_type : TypeEnt)
  | access (target : TypeEnt)
  | file (target : TypeEnt)
  | protectedT
  | incomplete
  | aliasT (target : TypeEnt)
  | subtype (base : TypeEnt)
  | interface
  deriving DecidableEq

/-- A type entity: an arena identity together with its type kind. -/
inductive TypeEnt where
  | mk (id : Nat) (kind : TypeKind)
  deriving DecidableEq

end

def TypeEnt.id : TypeEnt → Nat
  | .mk i _ => i

def TypeEnt.kind : TypeEnt → TypeKind
  | .mk _ k => k

/-- Modelled from the spec: named_entity.rs `Type::implicits` is outside the
source slice.  Per §3 of the specification, every type-kind variant carries an
implicits slot except `Subtype`, `Alias`, `Interface`, `Incomplete`,
`Protected` and `File`, which return none. -/
def TypeKind.implicitsPresent : TypeKind → Bool
  | .subtype _ => false
  | .aliasT _ => false
  | .interface => false
  | .incomplete => false
  | .protectedT => false
  | .file _ => false
  | _ => true

/-- named_entity.rs `Object`: class, mode, subtype and default marker.
`subtype` holds the base type of the `Subtype::new` wrapper. -/
structure Object where
  objClass : ObjectClass
  mode : Option Mode
  subtype : TypeEnt
  has_default : Bool
  deriving DecidableEq

/-- The kind of a formal parameter entity: every formal the synthesizer
allocates is either an `Object` or an `InterfaceFile`. -/
inductive ParamKind where
  | object (o : Object)
  | interfaceFile (typ : TypeEnt)
  deriving DecidableEq

/-- A formal parameter entity, allocated with `Arena::explicit`
(no parent, not implicit). -/
structure ParamEnt where
  designator : Designator
  kind : ParamKind
  deriving DecidableEq

/-- The kind of a synthesized subprogram entity
(named_entity.rs `new_function_decl` / `new_procedure_decl`). -/
inductive EntKind where
  | function (formals : List ParamEnt) (ret : TypeEnt)
  | procedure (formals : List ParamEnt)
  deriving DecidableEq

/-- A synthesized entity.  Modelled from the spec (§4.4): `Arena::implicit`
allocates an entity marked implicitly generated (`isImplicit = true`) and
linked to its parent type; `Arena::explicit` leaves both fields empty. -/
structure Ent where
  designator : Designator
  kind : EntKind
  parent : Option TypeEnt
  isImplicit : Bool
  deriving DecidableEq

def Ent.formals (e : Ent) : List ParamEnt :=
  match e.kind with
  | .function formals _ => formals
  | .procedure formals => formals

/-- Whether a formal parameter is marked as having a default value. -/
def ParamEnt.hasDefault (p : ParamEnt) : Bool :=
  match p.kind with
  | .object o => o.has_default
  | .interfaceFile _ => false

/-- An entity as seen among a region's immediates: either a type entity or
something that is not a type (`TypeEnt::from_any` fails on the latter). -/
inductive AnyEnt where
  | typeEnt (t : TypeEnt)
  | otherEnt
  deriving DecidableEq

/-- region.rs `NamedEntities`: a single entity or an overload set. -/
inductive NamedEntities where
  | single (e : AnyEnt)
  | overloaded (es : List AnyEnt)
  deriving DecidableEq

/-- named_entity.rs `TypeEnt::from_any`: succeeds exactly on type entities. -/
def TypeEnt.from_any : AnyEnt → Option TypeEnt
  | .typeEnt t => some t
  | .otherEnt => none

/-- standard.rs `StandardRegion`: the standard region's immediates together
with the (never-failing, §3) `lookup_type` resolution of predefined names. -/
structure StandardRegion where
  region : List NamedEntities
  lookup_type : String → TypeEnt

def StandardRegion.string (sr : StandardRegion) : TypeEnt :=
  sr.lookup_type "STRING"

def StandardRegion.boolean (sr : StandardRegion) : TypeEnt :=
  sr.lookup_type "BOOLEAN"

def StandardRegion.natural (sr : StandardRegion) : TypeEnt :=
  sr.lookup_type "NATURAL"

def StandardRegion.real (sr : StandardRegion) : TypeEnt :=
  sr.lookup_type "REAL"

def StandardRegion.time (sr : StandardRegion) : TypeEnt :=
  sr.lookup_type "TIME"

def StandardRegion.file_open_kind (sr : StandardRegion) : TypeEnt :=
  sr.lookup_type "FILE_OPEN_KIND"

def StandardRegion.file_open_status (sr : StandardRegion) : TypeEnt :=
  sr.lookup_type "FILE_OPEN_STATUS"

/-- standard.rs `create_implicit_file_type_subprograms` (lines 111-315):
the seven implicit subprograms of a file type `FT` with element type `TM`. -/
def StandardRegion.create_implicit_file_type_subprograms (sr : StandardRegion)
    (file_type : TypeEnt) (type_mark : TypeEnt) : List Ent :=
  let string := sr.string
  let boolean := sr.boolean
  let file_open_kind := sr.file_open_kind
  let file_open_status := sr.file_open_status
  [ -- procedure FILE_OPEN (file F: FT; External_Name: in STRING;
    --                      Open_Kind: in FILE_OPEN_KIND := READ_MODE);
    Ent.mk (.identifier "FILE_OPEN")
      (.procedure
        [ ParamEnt.mk (.identifier "F") (.interfaceFile file_type),
          ParamEnt.mk (.identifier "External_Name")
            (.object (Object.mk .constant (some .in_) string false)),
          ParamEnt.mk (.identifier "Open_Kind")
            (.object (Object.mk .constant (some .in_) file_open_kind true)) ])
      (some file_type) true,
    -- procedure FILE_OPEN (Status: out FILE_OPEN_STATUS; file F: FT;
    --                      External_Name: in STRING;
    --                      Open_Kind: in FILE_OPEN_KIND := READ_MODE);
    Ent.mk (.identifier "FILE_OPEN")
      (.procedure
        [ ParamEnt.mk (.identifier "Status")
            (.object (Object.mk .var (some .out) file_open_status false)),
          ParamEnt.mk (.identifier "F") (.interfaceFile file_type),
          ParamEnt.mk (.identifier "External_Name")
            (.object (Object.mk .constant (some .in_) string false)),
          ParamEnt.mk (.identifier "Open_Kind")
            (.object (Object.mk .constant (some .in_) file_open_kind true)) ])
      (some file_type) true,
    -- procedure FILE_CLOSE (file F: FT);
    Ent.mk (.identifier "FILE_CLOSE")
      (.procedure [ ParamEnt.mk (.identifier "F") (.interfaceFile file_type) ])
      (some file_type) true,
    -- procedure READ (file F: FT; VALUE: out TM);
    Ent.mk (.identifier "READ")
      (.procedure
        [ ParamEnt.mk (.identifier "F") (.interfaceFile file_type),
          ParamEnt.mk (.identifier "VALUE")
            (.object (Object.mk .var (some .out) type_mark false)) ])
      (some file_type) true,
    -- procedure WRITE (file F: FT; VALUE: in TM);
    Ent.mk (.identifier "WRITE")
      (.procedure
        [ ParamEnt.mk (.identifier "F") (.interfaceFile file_type),
          ParamEnt.mk (.identifier "VALUE")
            (.object (Object.mk .constant (some .in_) type_mark false)) ])
      (some file_type) true,
    -- procedure FLUSH (file F: FT);
    Ent.mk (.identifier "FLUSH")
      (.procedure [ ParamEnt.mk (.identifier "F") (.interfaceFile file_type) ])
      (some file_type) true,
    -- function ENDFILE (file F: FT) return BOOLEAN;
    Ent.mk (.identifier "ENDFILE")
      (.function [ ParamEnt.mk (.identifier "F") (.interfaceFile file_type) ] boolean)
      (some file_type) true ]

/-- standard.rs `create_to_string`:
function TO_STRING (VALUE: T) return STRING. -/
def StandardRegion.create_to_string (sr : StandardRegion) (type_ent : TypeEnt) : Ent :=
  Ent.mk (.identifier "TO_STRING")
    (.function
      [ ParamEnt.mk (.identifier "VALUE")
          (.object (Object.mk .constant (some .in_) type_ent false)) ]
      sr.string)
    (some type_ent) true

/-- standard.rs `create_min_or_maximum`:
function MINIMUM/MAXIMUM (L, R: T) return T. -/
def StandardRegion.create_min_or_maximum (_sr : StandardRegion)
    (name : String) (type_ent : TypeEnt) : Ent :=
  Ent.mk (.identifier name)
    (.function
      [ ParamEnt.mk (.identifier "L")
          (.object (Object.mk .constant (some .in_) type_ent false)),
        ParamEnt.mk (.identifier "R")
          (.object (Object.mk .constant (some .in_) type_ent false)) ]
      type_ent)
    (some type_ent) true

/-- standard.rs `unary`: op (V: typ) return return_type, implicit of typ. -/
def StandardRegion.unary (_sr : StandardRegion)
    (op : Operator) (typ : TypeEnt) (return_type : TypeEnt) : Ent :=
  Ent.mk (.operatorSymbol op)
    (.function
      [ ParamEnt.mk (.identifier "V")
          (.object (Object.mk .constant (some .in_) typ false)) ]
      return_type)
    (some typ) true

/-- standard.rs `symmetric_unary`. -/
def StandardRegion.symmetric_unary (sr : StandardRegion)
    (op : Operator) (typ : TypeEnt) : Ent :=
  sr.unary op typ typ

/-- standard.rs `binary`: op (L: left; R: right) return return_type,
implicit of `implicit_of`. -/
def StandardRegion.binary (_sr : StandardRegion)
    (op : Operator) (implicit_of : TypeEnt) (left : TypeEnt) (right : TypeEnt)
    (return_type : TypeEnt) : Ent :=
  Ent.mk (.operatorSymbol op)
    (.function
      [ ParamEnt.mk (.identifier "L")
          (.object (Object.mk .constant (some .in_) left false)),
        ParamEnt.mk (.identifier "R")
          (.object (Object.mk .constant (some .in_) right false)) ]
      return_type)
    (some implicit_of) true

/-- standard.rs `symmetric_binary`. -/
def StandardRegion.symmetric_binary (sr : StandardRegion)
    (op : Operator) (typ : TypeEnt) : Ent :=
  sr.binary op typ typ typ typ

/-- standard.rs `comparison`: op (L, R: typ) return BOOLEAN. -/
def StandardRegion.comparison (sr : StandardRegion)
    (op : Operator) (typ : TypeEnt) : Ent :=
  sr.binary op typ typ typ sr.boolean

def StandardRegion.minimum (sr : StandardRegion) (type_ent : TypeEnt) : Ent :=
  sr.create_min_or_maximum "MINIMUM" type_ent

def StandardRegion.maximum (sr : StandardRegion) (type_ent : TypeEnt) : Ent :=
  sr.create_min_or_maximum "MAXIMUM" type_ent

/-- standard.rs `deallocate`: procedure DEALLOCATE (P: inout AT). -/
def StandardRegion.deallocate (_sr : StandardRegion) (type_ent : TypeEnt) : Ent :=
  Ent.mk (.identifier "DEALLOCATE")
    (.procedure
      [ ParamEnt.mk (.identifier "P")
          (.object (Object.mk .var (some .inout) type_ent false)) ])
    (some type_ent) true

/-- standard.rs `comparators` (lines 482-492). -/
def StandardRegion.comparators (sr : StandardRegion) (typ : TypeEnt) : List Ent :=
  [ sr.comparison .eq typ,
    sr.comparison .ne typ,
    sr.comparison .lt typ,
    sr.comparison .lte typ,
    sr.comparison .gt typ,
    sr.comparison .gte typ ]

/-- standard.rs `numeric_implicits` (lines 494-507). -/
def StandardRegion.numeric_implicits (sr : StandardRegion) (typ : TypeEnt) : List Ent :=
  [ sr.minimum typ,
    sr.maximum typ,
    sr.create_to_string typ,
    sr.symmetric_unary .minus typ,
    sr.symmetric_unary .plus typ,
    sr.symmetric_unary .abs typ,
    sr.symmetric_binary .plus typ,
    sr.symmetric_binary .minus typ ]
  ++ sr.comparators typ

/-- standard.rs `physical_implicits`. -/
def StandardRegion.physical_implicits (sr : StandardRegion) (typ : TypeEnt) : List Ent :=
  [ sr.minimum typ,
    sr.maximum typ,
    sr.symmetric_unary .minus typ,
    sr.symmetric_unary .plus typ,
    sr.symmetric_unary .abs typ,
    sr.symmetric_binary .plus typ,
    sr.symmetric_binary .minus typ ]
  ++ sr.comparators typ

/-- standard.rs `enum_implicits`. -/
def StandardRegion.enum_implicits (sr : StandardRegion) (typ : TypeEnt) : List Ent :=
  [ sr.create_to_string typ,
    sr.minimum typ,
    sr.maximum typ ]
  ++ sr.comparators typ

/-- standard.rs `record_implicits`. -/
def StandardRegion.record_implicits (sr : StandardRegion) (typ : TypeEnt) : List Ent :=
  [ sr.comparison .eq typ,
    sr.comparison .ne typ ]

/-- standard.rs `concatenations` (lines 541-571): the four implicit
concatenation operators of a one-dimensional array type. -/
def StandardRegion.concatenations (sr : StandardRegion)
    (array_type : TypeEnt) (elem_type : TypeEnt) : List Ent :=
  [ sr.binary .concat array_type array_type elem_type array_type,
    sr.binary .concat array_type elem_type array_type array_type,
    sr.symmetric_binary .concat array_type,
    sr.binary .concat array_type elem_type elem_type array_type ]

/-- standard.rs `array_implicits` (lines 573-594).  The source is only ever
called with an array type (it panics otherwise); the non-array branch here is
dead code kept to make the function total. -/
def StandardRegion.array_implicits (sr : StandardRegion) (typ : TypeEnt) : List Ent :=
  match typ.kind with
  | .array indexes elem_type =>
    [ sr.create_to_string typ,
      sr.comparison .eq typ,
      sr.comparison .ne typ ]
    ++ (if indexes.length == 1 then sr.concatenations typ elem_type else [])
  | _ => []

/-- standard.rs `access_implicits`. -/
def StandardRegion.access_implicits (sr : StandardRegion) (typ : TypeEnt) : List Ent :=
  [ sr.deallocate typ,
    sr.comparison .eq typ,
    sr.comparison .ne typ ]

/-- standard.rs `type_implicits` (lines 605-622): dispatch on the type kind. -/
def StandardRegion.type_implicits (sr : StandardRegion) (typ : TypeEnt) : List Ent :=
  match typ.kind with
  | .access _ => sr.access_implicits typ
  | .enum => sr.enum_implicits typ
  | .integer => sr.numeric_implicits typ
  | .real => sr.numeric_implicits typ
  | .record => sr.record_implicits typ
  | .physical => sr.physical_implicits typ
  | .array _ _ => sr.array_implicits typ
  | .universal _ => []
  | .interface => []
  | .aliasT _ => []
  | .protectedT => []
  | .incomplete => []
  | .file _ => []
  | .subtype _ => []

/-- Rust `str::strip_suffix`: drop `suffix` from the end of `s` when present.
Implemented over the character list so that it evaluates by kernel
reduction. -/
def strip_suffix (s : String) (suffix : String) : Option String :=
  if s.data.length ≥ suffix.data.length &&
      s.data.drop (s.data.length - suffix.data.length) == suffix.data then
    some (String.mk (s.data.take (s.data.length - suffix.data.length)))
  else none

/-- standard.rs `end_of_package_implicits`, BOOLEAN/BIT segment
(lines 655-675): the six symmetric logical binaries and unary `not`. -/
def StandardRegion.logical_implicits (sr : StandardRegion) (name : String) : List Ent :=
  let typ := sr.lookup_type name
  [ sr.symmetric_binary .and typ,
    sr.symmetric_binary .or typ,
    sr.symmetric_binary .nand typ,
    sr.symmetric_binary .nor typ,
    sr.symmetric_binary .xor typ,
    sr.symmetric_binary .xnor typ,
    sr.symmetric_unary .not typ ]

/-- standard.rs `end_of_package_implicits`, BOOLEAN_VECTOR/BIT_VECTOR segment
(lines 677-716): for each of the six logical operators, four entities over the
array type `A` and the scalar type `S` (the name without the `_VECTOR`
suffix); the `not` branch of the source is transcribed verbatim. -/
def StandardRegion.vector_implicits (sr : StandardRegion) (name : String) : List Ent :=
  let atyp := sr.lookup_type name
  let styp := sr.lookup_type ((strip_suffix name "_VECTOR").getD "")
  let ops : List Operator := [.and, .or, .nand, .nor, .xor, .xnor]
  ops.flatMap (fun op =>
    [ -- A op A -> A
      sr.symmetric_binary op atyp,
      if op == Operator.not then
        -- op A -> A
        sr.unary op atyp atyp
      else
        -- op A -> S
        sr.unary op atyp styp,
      -- A op S -> A
      sr.binary op atyp atyp styp atyp,
      -- the source comment reads `S op A -> A`, but the call passes
      -- left = atyp, right = atyp, return_type = styp
      sr.binary op atyp atyp atyp styp ])

/-- The same segment with the `op == Not` special case removed. -/
def StandardRegion.vector_implicits_no_special (sr : StandardRegion) (name : String) : List Ent :=
  let atyp := sr.lookup_type name
  let styp := sr.lookup_type ((strip_suffix name "_VECTOR").getD "")
  let ops : List Operator := [.and, .or, .nand, .nor, .xor, .xnor]
  ops.flatMap (fun op =>
    [ sr.symmetric_binary op atyp,
      sr.unary op atyp styp,
      sr.binary op atyp atyp styp atyp,
      sr.binary op atyp atyp atyp styp ])

/-- standard.rs lines 718-760:
function TO_STRING (VALUE: REAL; DIGITS: NATURAL) return STRING. -/
def StandardRegion.to_string_real_digits (sr : StandardRegion) : Ent :=
  Ent.mk (.identifier "TO_STRING")
    (.function
      [ ParamEnt.mk (.identifier "VALUE")
          (.object (Object.mk .constant (some .in_) sr.real false)),
        ParamEnt.mk (.identifier "DIGITS")
          (.object (Object.mk .constant (some .in_) sr.natural false)) ]
      sr.string)
    (some sr.real) true

/-- standard.rs lines 762-802:
function TO_STRING (VALUE: REAL; FORMAT: STRING) return STRING. -/
def StandardRegion.to_string_real_format (sr : StandardRegion) : Ent :=
  Ent.mk (.identifier "TO_STRING")
    (.function
      [ ParamEnt.mk (.identifier "VALUE")
          (.object (Object.mk .constant (some .in_) sr.real false)),
        ParamEnt.mk (.identifier "FORMAT")
          (.object (Object.mk .constant (some .in_) sr.string false)) ]
      sr.string)
    (some sr.real) true

/-- standard.rs lines 804-843:
function TO_STRING (VALUE: TIME; UNIT: TIME) return STRING. -/
def StandardRegion.to_string_time_unit (sr : StandardRegion) : Ent :=
  Ent.mk (.identifier "TO_STRING")
    (.function
      [ ParamEnt.mk (.identifier "VALUE")
          (.object (Object.mk .constant (some .in_) sr.time false)),
        ParamEnt.mk (.identifier "UNIT")
          (.object (Object.mk .constant (some .in_) sr.time false)) ]
      sr.string)
    (some sr.time) true

/-- standard.rs `end_of_package_implicits` (lines 627-845), decomposed into
the sequence of (spawning type, emitted entities) segments, in emission
order: the per-region `type_implicits` pass, TO_STRING over TIME, the
BOOLEAN/BIT logical operators, the BOOLEAN_VECTOR/BIT_VECTOR logical
operators, and the three overloaded TO_STRING functions. -/
def StandardRegion.eop_segments (sr : StandardRegion) : List (TypeEnt × List Ent) :=
  (sr.region.filterMap (fun ne =>
    match ne with
    | .single e =>
      match TypeEnt.from_any e with
      | some typ => some (typ, sr.type_implicits typ)
      | none => none
    | .overloaded _ => none))
  ++ [ (sr.time, [sr.create_to_string sr.time]) ]
  ++ (["BOOLEAN", "BIT"].map (fun n => (sr.lookup_type n, sr.logical_implicits n)))
  ++ (["BOOLEAN_VECTOR", "BIT_VECTOR"].map (fun n => (sr.lookup_type n, sr.vector_implicits n)))
  ++ [ (sr.real, [sr.to_string_real_digits]),
       (sr.real, [sr.to_string_real_format]),
       (sr.time, [sr.to_string_time_unit]) ]

/-- The result list of standard.rs `end_of_package_implicits`: every segment's
entities, in order. -/
def StandardRegion.end_of_package_implicits (sr : StandardRegion) : List Ent :=
  sr.eop_segments.flatMap (fun p => p.2)

/-- The pushes `end_of_package_implicits` performs into the per-type implicits
slots: for each emitted entity whose spawning type's kind has a present slot,
the pair (type id, entity) is recorded, in push order. -/
def StandardRegion.eop_slot_pushes (sr : StandardRegion) : List (Nat × Ent) :=
  sr.eop_segments.flatMap (fun p =>
    if p.1.kind.implicitsPresent then p.2.map (fun e => (p.1.id, e)) else [])

/-- Token kinds (syntax::Kind), restricted to what the completion matcher
distinguishes; every other reserved word or symbol is `otherKind`. -/
inductive TokKind where
  | use_ | library | dot | identifier | stringLiteral | all | otherKind
  deriving DecidableEq

/-- Token values (syntax::Value): an interned identifier symbol or anything
else. -/
inductive TokValue where
  | identifier (s : String)
  | noValue
  deriving DecidableEq

/-- A lexical token.  Positions are modelled as `Nat` offsets ordered like
`data::Position`; `start` and `stop` are the span's endpoints. -/
structure Token where
  kind : TokKind
  value : TokValue
  start : Nat
  stop : Nat
  deriving DecidableEq

/-- One tokenizer `pop()` outcome that carries information:
`Ok(Some(token))` or `Err(_)`.  A stream is a list of these;
running off its end is `Ok(None)`. -/
inductive PopResult where
  | tok (t : Token)
  | err
  deriving DecidableEq

/-- Loop body of completion.rs `tokenize_input` (lines 125-142): pop tokens,
breaking at the first token that starts at or after the cursor, returning the
accumulated prefix; on a tokenizer error discard everything. -/
def tokenize_go : List PopResult → Nat → List Token → List Token
  | [], _, acc => acc
  | .err :: _, _, _ => []
  | .tok t :: rest, cursor, acc =>
    if t.start ≥ cursor then acc else tokenize_go rest cursor (acc ++ [t])

/-- completion.rs `tokenize_input`. -/
def tokenize_input (stream : List PopResult) (cursor : Nat) : List Token :=
  tokenize_go stream cursor []

/-- ast `Declaration`, flattened: the nested `Attribute::Specification` and
`Attribute::Declaration` become two variants.  Designators are the strings
the completion proposer extracts. -/
inductive Declaration where
  | object (ident : String)
  | file (ident : String)
  | typeDecl (ident : String)
  | component (ident : String)
  | attributeSpec (ident : String)
  | attributeDecl (ident : String)
  | aliasDecl (designator : String)
  | subprogramDeclaration (designator : String)
  | subprogramBody
  | use_
  | package (ident : String)
  | configuration
  deriving DecidableEq

/-- completion.rs `declaration_to_string` (lines 85-102). -/
def declaration_to_string : Declaration → Option String
  | .object o => some o
  | .file f => some f
  | .typeDecl t => some t
  | .component c => some c
  | .attributeSpec s => some s
  | .attributeDecl d => some d
  | .aliasDecl a => some a
  | .subprogramDeclaration d => some d
  | .subprogramBody => none
  | .use_ => none
  | .package p => some p
  | .configuration => none

/-- Modelled from the spec: itertools `unique` (outside the source slice)
deduplicates an iterator, keeping the first occurrence of each element and
preserving their order. -/
def unique_strings : List String → List String
  | [] => []
  | a :: l => a :: unique_strings (l.filter (fun b => b ≠ a))
termination_by l => l.length
decreasing_by
  simp only [List.length_cons]
  exact Nat.lt_succ_of_le (List.length_filter_le _ _)

/-- ast `UnitKey`: a primary unit name or a secondary unit under a parent. -/
inductive UnitKey where
  | primary (s : String)
  | secondary (parent : String) (s : String)
  deriving DecidableEq

/-- ast `AnyDesignUnit`, restricted to what the completion proposer
distinguishes: a primary package unit with its declarations, or anything
else. -/
inductive AnyDesignUnit where
  | primaryPackage (decl : List Declaration)
  | otherUnit
  deriving DecidableEq

/-- The library manager surface of `DesignRoot`: libraries in enumeration
order, each with its unit map as an association list. -/
structure DesignRoot where
  libraries : List (String × List (UnitKey × AnyDesignUnit))

/-- DesignRoot `get_library_units`: look a library up by name. -/
def DesignRoot.get_library_units (root : DesignRoot) (lib : String) :
    Option (List (UnitKey × AnyDesignUnit)) :=
  (root.libraries.find? (fun p => p.1 == lib)).map (fun p => p.2)

/-- completion.rs `list_all_libraries` (lines 146-150). -/
def DesignRoot.list_all_libraries (root : DesignRoot) : List String :=
  root.libraries.map (fun p => p.1)

/-- completion.rs `list_primaries_for_lib` (lines 154-164). -/
def DesignRoot.list_primaries_for_lib (root : DesignRoot) (lib : String) : List String :=
  match root.get_library_units lib with
  | none => []
  | some units =>
    units.filterMap (fun p =>
      match p.1 with
      | .primary prim => some prim
      | .secondary _ _ => none)

/-- completion.rs `list_available_declarations` (lines 169-187). -/
def DesignRoot.list_available_declarations (root : DesignRoot)
    (lib : String) (primary_unit : String) : List String :=
  match root.get_library_units lib with
  | none => []
  | some units =>
    let unit : Option AnyDesignUnit :=
      (units.find? (fun p => p.1 == UnitKey.primary primary_unit)).map (fun p => p.2)
    match unit with
    | none => []
    | some (.primaryPackage decl) =>
      unique_strings (decl.filterMap declaration_to_string) ++ ["all"]
    | some .otherUnit => []

/-- The outcome of matching the trailing token sequence in completion.rs
`list_completion_options` (lines 191-204). -/
inductive TailMatch where
  | libs
  | primaries (library : String)
  | decls (library : String) (selected : String)
  | noMatch
  deriving DecidableEq

/-- The tail pattern match of completion.rs `list_completion_options`
(lines 191-204), written on the reversed token list so that Rust's
`[.., a, b]` slice pattern becomes `b :: a :: _`; the arms keep the source
order, so earlier arms win exactly as in Rust. -/
def match_tail (tokens : List Token) : TailMatch :=
  match tokens.reverse with
  | ⟨.library, _, _, _⟩ :: _ => .libs
  | ⟨.use_, _, _, _⟩ :: _ => .libs
  | ⟨.identifier, _, _, _⟩ :: ⟨.use_, _, _, _⟩ :: _ => .libs
  | ⟨.dot, _, _, _⟩ :: ⟨.identifier, .identifier library, _, _⟩ :: ⟨.use_, _, _, _⟩ :: _ =>
    .primaries library
  | ⟨.identifier, _, _, _⟩ :: ⟨.dot, _, _, _⟩ ::
      ⟨.identifier, .identifier library, _, _⟩ :: ⟨.use_, _, _, _⟩ :: _ =>
    .primaries library
  | ⟨.dot, _, _, _⟩ :: ⟨.identifier, .identifier selected, _, _⟩ :: ⟨.dot, _, _, _⟩ ::
      ⟨.identifier, .identifier library, _, _⟩ :: ⟨.use_, _, _, _⟩ :: _ =>
    .decls library selected
  | ⟨.stringLiteral, _, _, _⟩ :: ⟨.dot, _, _, _⟩ ::
      ⟨.identifier, .identifier selected, _, _⟩ :: ⟨.dot, _, _, _⟩ ::
      ⟨.identifier, .identifier library, _, _⟩ :: ⟨.use_, _, _, _⟩ :: _ =>
    .decls library selected
  | ⟨.identifier, _, _, _⟩ :: ⟨.dot, _, _, _⟩ ::
      ⟨.identifier, .identifier selected, _, _⟩ :: ⟨.dot, _, _, _⟩ ::
      ⟨.identifier, .identifier library, _, _⟩ :: ⟨.use_, _, _, _⟩ :: _ =>
    .decls library selected
  | _ => .noMatch

/-- completion.rs `list_completion_options` (lines 189-205): tokenize up to
the cursor, then dispatch on the trailing token pattern. -/
def DesignRoot.list_completion_options (root : DesignRoot)
    (stream : List PopResult) (cursor : Nat) : List String :=
  let tokens := tokenize_input stream cursor
  match match_tail tokens with
  | .libs => root.list_all_libraries
  | .primaries library => root.list_primaries_for_lib library
  | .decls library selected => root.list_available_declarations library selected
  | .noMatch => []

/-- ast::search `RegionCategory`, as the specification surfaces it. -/
inductive RegionCategory where
  | declarativeRegion
  | sequentialStatements
  | concurrentStatements
  deriving DecidableEq

/-- A position range with inclusive start and exclusive end, the interval
`data::Range` of a region.  Modelled from the spec: the `Range` type is
outside the source slice. -/
structure RegionRange where
  start : Nat
  stop : Nat
  deriving DecidableEq

/-- Modelled from the spec: `Range::contains` — the cursor lies inside the
range. -/
def RegionRange.contains (r : RegionRange) (cursor : Nat) : Bool :=
  r.start ≤ cursor && cursor < r.stop

/-- completion.rs `RegionSearcher::search_region` (lines 39-52): accept a
callback region when it contains the cursor and either nothing was accepted
yet or the new range lies within the previously accepted one. -/
def search_region (cursor : Nat) (state : Option (RegionCategory × RegionRange))
    (region : RegionRange) (kind : RegionCategory) :
    Option (RegionCategory × RegionRange) :=
  if region.contains cursor then
    match state with
    | some (_, old_region) =>
      if old_region.start ≤ region.start && region.stop ≤ old_region.stop then
        some (kind, region)
      else
        state
    | none => some (kind, region)
  else
    state

/-- Modelled from the spec: the visitor walk behind `search_region` and
`RegionSearcher::search_source` (completion.rs lines 54-60).  The AST
traversal presents each source with its region callbacks in visit order;
`search_source` skips every source other than the one of interest
(`Finished(NotFound)`), and the region callbacks of the matching source are
folded through `search_region`. -/
def region_at (groups : List (Nat × List (RegionRange × RegionCategory)))
    (source : Nat) (cursor : Nat) : Option (RegionCategory × RegionRange) :=
  groups.foldl
    (fun state g =>
      if g.1 == source then
        g.2.foldl (fun st rk => search_region cursor st rk.1 rk.2) state
      else
        state)
    none

/-- The 14 implicit entities that §4.1 row 1 of the specification lists for an
integer or real type `T`, written out in the claimed order: MINIMUM, MAXIMUM,
TO_STRING, unary minus, unary plus, unary abs, binary plus, binary minus, then
the six comparators, each over `T` and each comparator returning BOOLEAN. -/
def spec_numeric_implicits (sr : StandardRegion) (T : TypeEnt) : List Ent :=
  [ Ent.mk (.identifier "MINIMUM")
      (.function
        [ ParamEnt.mk (.identifier "L") (.object (Object.mk .constant (some .in_) T false)),
          ParamEnt.mk (.identifier "R") (.object (Object.mk .constant (some .in_) T false)) ]
        T)
      (some T) true,
    Ent.mk (.identifier "MAXIMUM")
      (.function
        [ ParamEnt.mk (.identifier "L") (.object (Object.mk .constant (some .in_) T false)),
          ParamEnt.mk (.identifier "R") (.object (Object.mk .constant (some .in_) T false)) ]
        T)
      (some T) true,
    Ent.mk (.identifier "TO_STRING")
      (.function
        [ ParamEnt.mk (.identifier "VALUE") (.object (Object.mk .constant (some .in_) T false)) ]
        sr.string)
      (some T) true,
    Ent.mk (.operatorSymbol .minus)
      (.function
        [ ParamEnt.mk (.identifier "V") (.object (Object.mk .constant (some .in_) T false)) ]
        T)
      (some T) true,
    Ent.mk (.operatorSymbol .plus)
      (.function
        [ ParamEnt.mk (.identifier "V") (.object (Object.mk .constant (some .in_) T false)) ]
        T)
      (some T) true,
    Ent.mk (.operatorSymbol .abs)
      (.function
        [ ParamEnt.mk (.identifier "V") (.object (Object.mk .constant (some .in_) T false)) ]
        T)
      (some T) true,
    Ent.mk (.operatorSymbol .plus)
      (.function
        [ ParamEnt.mk (.identifier "L") (.object (Object.mk .constant (some .in_) T false)),
          ParamEnt.mk (.identifier "R") (.object (Object.mk .constant (some .in_) T false)) ]
        T)
      (some T) true,
    Ent.mk (.operatorSymbol .minus)
      (.function
        [ ParamEnt.mk (.identifier "L") (.object (Object.mk .constant (some .in_) T false)),
          ParamEnt.mk (.identifier "R") (.object (Object.mk .constant (some .in_) T false)) ]
        T)
      (some T) true,
    Ent.mk (.operatorSymbol .eq)
      (.function
        [ ParamEnt.mk (.identifier "L") (.object (Object.mk .constant (some .in_) T false)),
          ParamEnt.mk (.identifier "R") (.object (Object.mk .constant (some .in_) T false)) ]
        sr.boolean)
      (some T) true,
    Ent.mk (.operatorSymbol .ne)
      (.function
        [ ParamEnt.mk (.identifier "L") (.object (Object.mk .constant (some .in_) T false)),
          ParamEnt.mk (.identifier "R") (.object (Object.mk .constant (some .in_) T false)) ]
        sr.boolean)
      (some T) true,
    Ent.mk (.operatorSymbol .lt)
      (.function
        [ ParamEnt.mk (.identifier "L") (.object (Object.mk .constant (some .in_) T false)),
          ParamEnt.mk (.identifier "R") (.object (Object.mk .constant (some .in_) T false)) ]
        sr.boolean)
      (some T) true,
    Ent.mk (.operatorSymbol .lte)
      (.function
        [ ParamEnt.mk (.identifier "L") (.object (Object.mk .constant (some .in_) T false)),
          ParamEnt.mk (.identifier "R") (.object (Object.mk .constant (some .in_) T false)) ]
        sr.boolean)
      (some T) true,
    Ent.mk (.operatorSymbol .gt)
      (.function
        [ ParamEnt.mk (.identifier "L") (.object (Object.mk .constant (some .in_) T false)),
          ParamEnt.mk (.identifier "R") (.object (Object.mk .constant (some .in_) T false)) ]
        sr.boolean)
      (some T) true,
    Ent.mk (.operatorSymbol .gte)
      (.function
        [ ParamEnt.mk (.identifier "L") (.object (Object.mk .constant (some .in_) T false)),
          ParamEnt.mk (.identifier "R") (.object (Object.mk .constant (some .in_) T false)) ]
        sr.boolean)
      (some T) true ]

/-- The implicit entities the claim C3 lists for an array type `A` with
element type `E` and `dims` index dimensions: TO_STRING, equality, inequality,
then, exactly when `dims = 1`, the concatenations `A x E -> A`, `E x A -> A`,
`A x A -> A`, `E x E -> A`, all four attached to the array type. -/
def spec_array_implicits (sr : StandardRegion) (A : TypeEnt) (E : TypeEnt)
    (dims : Nat) : List Ent :=
  [ Ent.mk (.identifier "TO_STRING")
      (.function
        [ ParamEnt.mk (.identifier "VALUE") (.object (Object.mk .constant (some .in_) A false)) ]
        sr.string)
      (some A) true,
    Ent.mk (.operatorSymbol .eq)
      (.function
        [ ParamEnt.mk (.identifier "L") (.object (Object.mk .constant (some .in_) A false)),
          ParamEnt.mk (.identifier "R") (.object (Object.mk .constant (some .in_) A false)) ]
        sr.boolean)
      (some A) true,
    Ent.mk (.operatorSymbol .ne)
      (.function
        [ ParamEnt.mk (.identifier "L") (.object (Object.mk .constant (some .in_) A false)),
          ParamEnt.mk (.identifier "R") (.object (Object.mk .constant (some .in_) A false)) ]
        sr.boolean)
      (some A) true ]
  ++ (if dims == 1 then
    [ Ent.mk (.operatorSymbol .concat)
        (.function
          [ ParamEnt.mk (.identifier "L") (.object (Object.mk .constant (some .in_) A false)),
            ParamEnt.mk (.identifier "R") (.object (Object.mk .constant (some .in_) E false)) ]
          A)
        (some A) true,
      Ent.mk (.operatorSymbol .concat)
        (.function
          [ ParamEnt.mk (.identifier "L") (.object (Object.mk .constant (some .in_) E false)),
            ParamEnt.mk (.identifier "R") (.object (Object.mk .constant (some .in_) A false)) ]
          A)
        (some A) true,
      Ent.mk (.operatorSymbol .concat)
        (.function
          [ ParamEnt.mk (.identifier "L") (.object (Object.mk .constant (some .in_) A false)),
            ParamEnt.mk (.identifier "R") (.object (Object.mk .constant (some .in_) A false)) ]
          A)
        (some A) true,
      Ent.mk (.operatorSymbol .concat)
        (.function
          [ ParamEnt.mk (.identifier "L") (.object (Object.mk .constant (some .in_) E false)),
            ParamEnt.mk (.identifier "R") (.object (Object.mk .constant (some .in_) E false)) ]
          A)
        (some A) true ]
  else [])

/-- The seven file-type subprograms as §4.1 of the specification spells them
out, in the claimed order, with the claimed parameter names, classes, modes
and the single defaulted `Open_Kind` parameter. -/
def spec_file_subprograms (sr : StandardRegion) (FT : TypeEnt) (TM : TypeEnt) : List Ent :=
  [ Ent.mk (.identifier "FILE_OPEN")
      (.procedure
        [ ParamEnt.mk (.identifier "F") (.interfaceFile FT),
          ParamEnt.mk (.identifier "External_Name")
            (.object (Object.mk .constant (some .in_) sr.string false)),
          ParamEnt.mk (.identifier "Open_Kind")
            (.object (Object.mk .constant (some .in_) sr.file_open_kind true)) ])
      (some FT) true,
    Ent.mk (.identifier "FILE_OPEN")
      (.procedure
        [ ParamEnt.mk (.identifier "Status")
            (.object (Object.mk .var (some .out) sr.file_open_status false)),
          ParamEnt.mk (.identifier "F") (.interfaceFile FT),
          ParamEnt.mk (.identifier "External_Name")
            (.object (Object.mk .constant (some .in_) sr.string false)),
          ParamEnt.mk (.identifier "Open_Kind")
            (.object (Object.mk .constant (some .in_) sr.file_open_kind true)) ])
      (some FT) true,
    Ent.mk (.identifier "FILE_CLOSE")
      (.procedure [ ParamEnt.mk (.identifier "F") (.interfaceFile FT) ])
      (some FT) true,
    Ent.mk (.identifier "READ")
      (.procedure
        [ ParamEnt.mk (.identifier "F") (.interfaceFile FT),
          ParamEnt.mk (.identifier "VALUE")
            (.object (Object.mk .var (some .out) TM false)) ])
      (some FT) true,
    Ent.mk (.identifier "WRITE")
      (.procedure
        [ ParamEnt.mk (.identifier "F") (.interfaceFile FT),
          ParamEnt.mk (.identifier "VALUE")
            (.object (Object.mk .constant (some .in_) TM false)) ])
      (some FT) true,
    Ent.mk (.identifier "FLUSH")
      (.procedure [ ParamEnt.mk (.identifier "F") (.interfaceFile FT) ])
      (some FT) true,
    Ent.mk (.identifier "ENDFILE")
      (.function [ ParamEnt.mk (.identifier "F") (.interfaceFile FT) ] sr.boolean)
      (some FT) true ]

/-- Strict nesting of one range inside another: contained and not equal. -/
def strictly_nested (r old : RegionRange) : Prop :=
  old.start ≤ r.start ∧ r.stop ≤ old.stop ∧ r ≠ old

/-- A concrete standard region used to instantiate universally quantified
theorems on explicit inputs. -/
def sampleSR : StandardRegion :=
  StandardRegion.mk
    [ NamedEntities.single (AnyEnt.typeEnt (TypeEnt.mk 7 TypeKind.integer)) ]
    (fun name =>
      if name == "BOOLEAN" then TypeEnt.mk 1 TypeKind.enum
      else if name == "STRING" then
        TypeEnt.mk 2 (TypeKind.array [()] (TypeEnt.mk 3 TypeKind.enum))
      else if name == "BOOLEAN_VECTOR" then
        TypeEnt.mk 4 (TypeKind.array [()] (TypeEnt.mk 1 TypeKind.enum))
      else if name == "BIT" then TypeEnt.mk 5 TypeKind.enum
      else if name == "BIT_VECTOR" then
        TypeEnt.mk 6 (TypeKind.array [()] (TypeEnt.mk 5 TypeKind.enum))
      else if name == "TIME" then TypeEnt.mk 8 TypeKind.physical
      else if name == "REAL" then TypeEnt.mk 9 TypeKind.real
      else if name == "NATURAL" then
        TypeEnt.mk 10 (TypeKind.subtype (TypeEnt.mk 11 TypeKind.integer))
      else TypeEnt.mk 0 TypeKind.enum)

/-- A concrete design root with one library holding one package. -/
def sampleRoot : DesignRoot :=
  DesignRoot.mk
    [ ("ieee",
       [ (UnitKey.primary "std_logic_1164",
          AnyDesignUnit.primaryPackage
            [ Declaration.typeDecl "std_ulogic",
              Declaration.subprogramDeclaration "resolved",
              Declaration.subprogramBody,
              Declaration.typeDecl "std_ulogic" ]) ]) ]

/-- A concrete token stream: `use ieee.` with positions. -/
def sampleStream : List PopResult :=
  [ PopResult.tok (Token.mk .use_ .noValue 0 3),
    PopResult.tok (Token.mk .identifier (.identifier "ieee") 4 8),
    PopResult.tok (Token.mk .dot .noValue 8 9) ]

/-- A concrete token stream naming a library that is not registered. -/
def sampleStreamUnknownLib : List PopResult :=
  [ PopResult.tok (Token.mk .use_ .noValue 0 3),
    PopResult.tok (Token.mk .identifier (.identifier "nolib") 4 9),
    PopResult.tok (Token.mk .dot .noValue 9 10) ]

/-- C1: for every type entity `T` whose kind is Integer or Real,
`type_implicits(T)` returns exactly the 14 entities MINIMUM, MAXIMUM,
TO_STRING, unary minus, unary plus, unary abs, binary plus, binary minus and
the six comparators, in that order, each built over `T`, with every
comparator returning BOOLEAN. -/
theorem c1_numeric_type_implicits (sr : StandardRegion) (T : TypeEnt)
    (h : T.kind = TypeKind.integer ∨ T.kind = TypeKind.real) :
    sr.type_implicits T = spec_numeric_implicits sr T := by
  cases T with
  | mk i k =>
    simp only [TypeEnt.kind] at h
    rcases h with h | h <;> subst h <;> rfl

/-- Witness for C1 at a concrete integer type. -/
theorem c1_numeric_type_implicits_witness :
    ((TypeEnt.mk 7 TypeKind.integer).kind = TypeKind.integer ∨
      (TypeEnt.mk 7 TypeKind.integer).kind = TypeKind.real) ∧
    sampleSR.type_implicits (TypeEnt.mk 7 TypeKind.integer) =
      spec_numeric_implicits sampleSR (TypeEnt.mk 7 TypeKind.integer) :=
  ⟨Or.inl rfl,
   c1_numeric_type_implicits sampleSR (TypeEnt.mk 7 TypeKind.integer) (Or.inl rfl)⟩

/-- C3: for every array type `A` with element type `E`, `type_implicits(A)`
is TO_STRING, equality, inequality, followed by the four concatenations
`A x E -> A`, `E x A -> A`, `A x A -> A`, `E x E -> A` (all attached to the
array type) exactly when the index list has one dimension, and nothing more
otherwise. -/
theorem c3_array_type_implicits (sr : StandardRegion) (i : Nat)
    (indexes : List Unit) (elem : TypeEnt) :
    sr.type_implicits (TypeEnt.mk i (TypeKind.array indexes elem)) =
      spec_array_implicits sr (TypeEnt.mk i (TypeKind.array indexes elem))
        elem indexes.length := by
  rfl

/-- C4: `create_implicit_file_type_subprograms(FT, TM)` returns exactly the
seven entities FILE_OPEN, FILE_OPEN, FILE_CLOSE, READ, WRITE, FLUSH, ENDFILE
in that order; FILE_OPEN appears exactly twice; the second FILE_OPEN's first
parameter is Status of mode out and subtype FILE_OPEN_STATUS; and in every
signature the Open_Kind parameter is the only parameter marked as having a
default. -/
theorem c4_file_type_subprograms (sr : StandardRegion) (FT TM : TypeEnt) :
    sr.create_implicit_file_type_subprograms FT TM = spec_file_subprograms sr FT TM ∧
    (sr.create_implicit_file_type_subprograms FT TM).map Ent.designator =
      [ Designator.identifier "FILE_OPEN", .identifier "FILE_OPEN",
        .identifier "FILE_CLOSE", .identifier "READ", .identifier "WRITE",
        .identifier "FLUSH", .identifier "ENDFILE" ] ∧
    ((sr.create_implicit_file_type_subprograms FT TM).map Ent.designator).count
        (Designator.identifier "FILE_OPEN") = 2 ∧
    ((sr.create_implicit_file_type_subprograms FT TM)[1]?).map (fun e => e.formals.head?) =
      some (some (ParamEnt.mk (.identifier "Status")
        (.object (Object.mk .var (some .out) sr.file_open_status false)))) ∧
    (sr.create_implicit_file_type_subprograms FT TM).all
      (fun e => e.formals.all
        (fun p => p.hasDefault == (p.designator == Designator.identifier "Open_Kind"))) = true := by
  refine ⟨rfl, rfl, rfl, rfl, rfl⟩

/-- C10: for any standard region and vector name, the BOOLEAN_VECTOR /
BIT_VECTOR segment of the end-of-package closure emits exactly 24 entities
(four per operator for the six iterated operators), never emits an entity
whose designator is the operator `not`, and coincides with the same
computation with the `not` special case deleted: that branch is
unreachable. -/
theorem c10_vector_segment_shape (sr : StandardRegion) (name : String) :
    (sr.vector_implicits name).length = 24 ∧
    sr.vector_implicits name = sr.vector_implicits_no_special name ∧
    (sr.vector_implicits name).all
      (fun e => !(e.designator == Designator.operatorSymbol Operator.not)) = true := by
  refine ⟨rfl, rfl, rfl⟩

/-- C2: evaluation of the code at the failing input.  For BOOLEAN_VECTOR and
the operator `and`, the fourth emitted entity of the group has both formals
`L` and `R` of the vector type and returns the scalar type BOOLEAN — the
source emits `A and A -> S` where its own comment and the specification state
`S and A -> A`. -/
theorem c2_fourth_vector_entity_eval :
    (sampleSR.vector_implicits "BOOLEAN_VECTOR")[3]? =
      some (Ent.mk (.operatorSymbol Operator.and)
        (.function
          [ ParamEnt.mk (.identifier "L")
              (.object (Object.mk .constant (some .in_)
                (TypeEnt.mk 4 (TypeKind.array [()] (TypeEnt.mk 1 TypeKind.enum))) false)),
            ParamEnt.mk (.identifier "R")
              (.object (Object.mk .constant (some .in_)
                (TypeEnt.mk 4 (TypeKind.array [()] (TypeEnt.mk 1 TypeKind.enum))) false)) ]
          (TypeEnt.mk 1 TypeKind.enum))
        (some (TypeEnt.mk 4 (TypeKind.array [()] (TypeEnt.mk 1 TypeKind.enum)))) true) := by
  decide

/-- Every comparator entity is implicit with the spawning type as parent. -/
theorem mem_comparators_parent (sr : StandardRegion) (T : TypeEnt) (e : Ent)
    (he : e ∈ sr.comparators T) : e.isImplicit = true ∧ e.parent = some T := by
  simp only [StandardRegion.comparators, List.mem_cons, List.not_mem_nil, or_false] at he
  rcases he with rfl | rfl | rfl | rfl | rfl | rfl <;> exact ⟨rfl, rfl⟩

/-- Every numeric implicit is implicit with the spawning type as parent. -/
theorem mem_numeric_parent (sr : StandardRegion) (T : TypeEnt) (e : Ent)
    (he : e ∈ sr.numeric_implicits T) : e.isImplicit = true ∧ e.parent = some T := by
  simp only [StandardRegion.numeric_implicits, List.mem_append, List.mem_cons,
    List.not_mem_nil, or_false] at he
  rcases he with (rfl | rfl | rfl | rfl | rfl | rfl | rfl | rfl) | he
  · exact ⟨rfl, rfl⟩
  · exact ⟨rfl, rfl⟩
  · exact ⟨rfl, rfl⟩
  · exact ⟨rfl, rfl⟩
  · exact ⟨rfl, rfl⟩
  · exact ⟨rfl, rfl⟩
  · exact ⟨rfl, rfl⟩
  · exact ⟨rfl, rfl⟩
  · exact mem_comparators_parent sr T e he

/-- Every physical implicit is implicit with the spawning type as parent. -/
theorem mem_physical_parent (sr : StandardRegion) (T : TypeEnt) (e : Ent)
    (he : e ∈ sr.physical_implicits T) : e.isImplicit = true ∧ e.parent = some T := by
  simp only [StandardRegion.physical_implicits, List.mem_append, List.mem_cons,
    List.not_mem_nil, or_false] at he
  rcases he with (rfl | rfl | rfl | rfl | rfl | rfl | rfl) | he
  · exact ⟨rfl, rfl⟩
  · exact ⟨rfl, rfl⟩
  · exact ⟨rfl, rfl⟩
  · exact ⟨rfl, rfl⟩
  · exact ⟨rfl, rfl⟩
  · exact ⟨rfl, rfl⟩
  · exact ⟨rfl, rfl⟩
  · exact mem_comparators_parent sr T e he

/-- Every enum implicit is implicit with the spawning type as parent. -/
theorem mem_enum_parent (sr : StandardRegion) (T : TypeEnt) (e : Ent)
    (he : e ∈ sr.enum_implicits T) : e.isImplicit = true ∧ e.parent = some T := by
  simp only [StandardRegion.enum_implicits, List.mem_append, List.mem_cons,
    List.not_mem_nil, or_false] at he
  rcases he with (rfl | rfl | rfl) | he
  · exact ⟨rfl, rfl⟩
  · exact ⟨rfl, rfl⟩
  · exact ⟨rfl, rfl⟩
  · exact mem_comparators_parent sr T e he

/-- Every record implicit is implicit with the spawning type as parent. -/
theorem mem_record_parent (sr : StandardRegion) (T : TypeEnt) (e : Ent)
    (he : e ∈ sr.record_implicits T) : e.isImplicit = true ∧ e.parent = some T := by
  simp only [StandardRegion.record_implicits, List.mem_cons, List.not_mem_nil,
    or_false] at he
  rcases he with rfl | rfl <;> exact ⟨rfl, rfl⟩

/-- Every access implicit is implicit with the spawning type as parent. -/
theorem mem_access_parent (sr : StandardRegion) (T : TypeEnt) (e : Ent)
    (he : e ∈ sr.access_implicits T) : e.isImplicit = true ∧ e.parent = some T := by
  simp only [StandardRegion.access_implicits, List.mem_cons, List.not_mem_nil,
    or_false] at he
  rcases he with rfl | rfl | rfl <;> exact ⟨rfl, rfl⟩

/-- Every concatenation is implicit with the array type as parent. -/
theorem mem_concatenations_parent (sr : StandardRegion) (A E : TypeEnt) (e : Ent)
    (he : e ∈ sr.concatenations A E) : e.isImplicit = true ∧ e.parent = some A := by
  simp only [StandardRegion.concatenations, List.mem_cons, List.not_mem_nil,
    or_false] at he
  rcases he with rfl | rfl | rfl | rfl <;> exact ⟨rfl, rfl⟩

/-- Every array implicit is implicit with the spawning array type as parent. -/
theorem mem_array_parent (sr : StandardRegion) (i : Nat) (indexes : List Unit)
    (elem : TypeEnt) (e : Ent)
    (he : e ∈ sr.array_implicits (TypeEnt.mk i (TypeKind.array indexes elem))) :
    e.isImplicit = true ∧
      e.parent = some (TypeEnt.mk i (TypeKind.array indexes elem)) := by
  have he' : e ∈
      ([ sr.create_to_string (TypeEnt.mk i (TypeKind.array indexes elem)),
         sr.comparison .eq (TypeEnt.mk i (TypeKind.array indexes elem)),
         sr.comparison .ne (TypeEnt.mk i (TypeKind.array indexes elem)) ] ++
        if indexes.length == 1 then
          sr.concatenations (TypeEnt.mk i (TypeKind.array indexes elem)) elem
        else []) := he
  rw [List.mem_append] at he'
  rcases he' with he' | he'
  · simp only [List.mem_cons, List.not_mem_nil, or_false] at he'
    rcases he' with rfl | rfl | rfl <;> exact ⟨rfl, rfl⟩
  · split at he'
    · exact mem_concatenations_parent sr _ elem e he'
    · exact absurd he' (List.not_mem_nil e)

/-- Every entity of `type_implicits` is implicit with parent the given type. -/
theorem mem_type_implicits_parent (sr : StandardRegion) (T : TypeEnt) (e : Ent)
    (he : e ∈ sr.type_implicits T) : e.isImplicit = true ∧ e.parent = some T := by
  obtain ⟨i, k⟩ := T
  cases k with
  | universal u => exact absurd he (List.not_mem_nil e)
  | integer => exact mem_numeric_parent sr _ e he
  | real => exact mem_numeric_parent sr _ e he
  | enum => exact mem_enum_parent sr _ e he
  | physical => exact mem_physical_parent sr _ e he
  | record => exact mem_record_parent sr _ e he
  | array indexes elem => exact mem_array_parent sr i indexes elem e he
  | access t => exact mem_access_parent sr _ e he
  | file t => exact absurd he (List.not_mem_nil e)
  | protectedT => exact absurd he (List.not_mem_nil e)
  | incomplete => exact absurd he (List.not_mem_nil e)
  | aliasT t => exact absurd he (List.not_mem_nil e)
  | subtype t => exact absurd he (List.not_mem_nil e)
  | interface => exact absurd he (List.not_mem_nil e)

/-- Every BOOLEAN/BIT logical implicit is implicit with the looked-up type as
parent. -/
theorem mem_logical_parent (sr : StandardRegion) (name : String) (e : Ent)
    (he : e ∈ sr.logical_implicits name) :
    e.isImplicit = true ∧ e.parent = some (sr.lookup_type name) := by
  simp only [StandardRegion.logical_implicits, List.mem_cons, List.not_mem_nil,
    or_false] at he
  rcases he with rfl | rfl | rfl | rfl | rfl | rfl | rfl <;> exact ⟨rfl, rfl⟩

/-- Every vector logical implicit is implicit with the array type as parent. -/
theorem mem_vector_parent (sr : StandardRegion) (name : String) (e : Ent)
    (he : e ∈ sr.vector_implicits name) :
    e.isImplicit = true ∧ e.parent = some (sr.lookup_type name) := by
  simp only [StandardRegion.vector_implicits, List.flatMap_cons, List.flatMap_nil,
    List.append_nil, List.mem_append, List.mem_cons, List.not_mem_nil, or_false] at he
  rcases he with
    ((rfl | rfl | rfl | rfl) | (rfl | rfl | rfl | rfl) | (rfl | rfl | rfl | rfl) |
      (rfl | rfl | rfl | rfl) | (rfl | rfl | rfl | rfl) | (rfl | rfl | rfl | rfl)) <;>
    exact ⟨rfl, rfl⟩

/-- Every segment of the end-of-package closure pairs a spawning type with
entities that are implicit and parented to it. -/
theorem mem_eop_segments_parent (sr : StandardRegion) (p : TypeEnt × List Ent)
    (hp : p ∈ sr.eop_segments) (e : Ent) (he : e ∈ p.2) :
    e.isImplicit = true ∧ e.parent = some p.1 := by
  simp only [StandardRegion.eop_segments, List.mem_append, List.mem_filterMap,
    List.mem_cons, List.mem_map, List.not_mem_nil, or_false] at hp
  rcases hp with (((⟨ne, hne, hmatch⟩ | rfl) | ⟨n, hn, rfl⟩) | ⟨n, hn, rfl⟩) | rfl | rfl | rfl
  · -- the per-region type_implicits pass
    cases ne with
    | single a =>
      cases a with
      | typeEnt t =>
        simp only [TypeEnt.from_any, Option.some.injEq] at hmatch
        subst hmatch
        exact mem_type_implicits_parent sr t e he
      | otherEnt => simp [TypeEnt.from_any] at hmatch
    | overloaded es => simp at hmatch
  · -- TO_STRING over TIME
    simp only [List.mem_cons, List.not_mem_nil, or_false] at he
    subst he
    exact ⟨rfl, rfl⟩
  · rcases hn with rfl | rfl
    · exact mem_logical_parent sr "BOOLEAN" e he
    · exact mem_logical_parent sr "BIT" e he
  · rcases hn with rfl | rfl
    · exact mem_vector_parent sr "BOOLEAN_VECTOR" e he
    · exact mem_vector_parent sr "BIT_VECTOR" e he
  · simp only [List.mem_cons, List.not_mem_nil, or_false] at he
    subst he
    exact ⟨rfl, rfl⟩
  · simp only [List.mem_cons, List.not_mem_nil, or_false] at he
    subst he
    exact ⟨rfl, rfl⟩
  · simp only [List.mem_cons, List.not_mem_nil, or_false] at he
    subst he
    exact ⟨rfl, rfl⟩

/-- C5: every entity returned by `type_implicits(T)` or emitted by
`end_of_package_implicits` is allocated with the arena's implicit constructor
with its parent set to the type that spawned it, and whenever that type's
kind has a present implicits slot, the entity is also pushed into that slot. -/
theorem c5_implicit_parent_and_slot (sr : StandardRegion) :
    (∀ T e, e ∈ sr.type_implicits T → e.isImplicit = true ∧ e.parent = some T) ∧
    (∀ e, e ∈ sr.end_of_package_implicits → e.isImplicit = true ∧
      ∃ t, e.parent = some t ∧
        (t.kind.implicitsPresent = true → (t.id, e) ∈ sr.eop_slot_pushes)) := by
  constructor
  · exact fun T e he => mem_type_implicits_parent sr T e he
  · intro e he
    rw [StandardRegion.end_of_package_implicits, List.mem_flatMap] at he
    obtain ⟨p, hp, hep⟩ := he
    obtain ⟨himp, hpar⟩ := mem_eop_segments_parent sr p hp e hep
    refine ⟨himp, p.1, hpar, fun hpres => ?_⟩
    rw [StandardRegion.eop_slot_pushes, List.mem_flatMap]
    refine ⟨p, hp, ?_⟩
    rw [if_pos hpres, List.mem_map]
    exact ⟨e, hep, rfl⟩

/-- Witness for C5 at a concrete region and type. -/
theorem c5_implicit_parent_and_slot_witness :
    (sampleSR.minimum (TypeEnt.mk 7 TypeKind.integer)).isImplicit = true ∧
    (sampleSR.minimum (TypeEnt.mk 7 TypeKind.integer)).parent =
      some (TypeEnt.mk 7 TypeKind.integer) :=
  (c5_implicit_parent_and_slot sampleSR).1 (TypeEnt.mk 7 TypeKind.integer)
    (sampleSR.minimum (TypeEnt.mk 7 TypeKind.integer))
    (by simp [StandardRegion.type_implicits, StandardRegion.numeric_implicits, TypeEnt.kind])

/-- On an error-free stream whose token start positions are monotone, the
tokenizer loop collects exactly the tokens starting strictly before the
cursor, after the accumulator. -/
theorem tokenize_go_monotone (cursor : Nat) :
    ∀ (l : List Token) (acc : List Token),
      l.Pairwise (fun a b => a.start ≤ b.start) →
      tokenize_go (l.map PopResult.tok) cursor acc =
        acc ++ l.filter (fun t => t.start < cursor) := by
  intro l
  induction l with
  | nil =>
    intro acc _
    simp [tokenize_go]
  | cons t rest ih =>
    intro acc hpw
    rw [List.pairwise_cons] at hpw
    obtain ⟨hhead, htail⟩ := hpw
    by_cases hge : t.start ≥ cursor
    · have h1 : tokenize_go ((t :: rest).map PopResult.tok) cursor acc = acc := by
        simp [tokenize_go, hge]
      have h2 : (t :: rest).filter (fun u => u.start < cursor) = [] := by
        refine List.filter_eq_nil_iff.mpr ?_
        intro a ha
        rcases List.mem_cons.mp ha with rfl | ha
        · simpa using hge
        · have := hhead a ha
          simp only [decide_eq_true_eq]
          omega
      rw [h1, h2, List.append_nil]
    · have hlt : t.start < cursor := by omega
      have h1 : tokenize_go ((t :: rest).map PopResult.tok) cursor acc =
          tokenize_go (rest.map PopResult.tok) cursor (acc ++ [t]) := by
        simp [tokenize_go, hge]
      rw [h1, ih (acc ++ [t]) htail, List.filter_cons, if_pos (by simpa using hlt)]
      simp

/-- C6: `tokenize_input` emits a token if and only if the token's start
position is strictly less than the cursor position: on a monotone error-free
stream the result is exactly the filter of the tokens by `start < cursor`, a
token starting at or after the cursor is excluded, a token starting before
the cursor is included regardless of where it ends, and with the cursor past
every start position all tokens are included. -/
theorem c6_tokenize_strictly_before_cursor (l : List Token) (cursor : Nat)
    (hmono : l.Pairwise (fun a b => a.start ≤ b.start)) :
    tokenize_input (l.map PopResult.tok) cursor =
      l.filter (fun t => t.start < cursor) ∧
    (∀ t, t ∈ tokenize_input (l.map PopResult.tok) cursor ↔
      t ∈ l ∧ t.start < cursor) ∧
    ((∀ t ∈ l, t.start < cursor) →
      tokenize_input (l.map PopResult.tok) cursor = l) := by
  have hfilter : tokenize_input (l.map PopResult.tok) cursor =
      l.filter (fun t => t.start < cursor) := by
    rw [tokenize_input, tokenize_go_monotone cursor l [] hmono, List.nil_append]
  refine ⟨hfilter, ?_, ?_⟩
  · intro t
    rw [hfilter, List.mem_filter]
    simp
  · intro hall
    rw [hfilter]
    refine List.filter_eq_self.mpr ?_
    intro a ha
    simpa using hall a ha

/-- Witness for C6 on a concrete monotone stream: the token starting before
the cursor is kept, the one starting at the cursor is dropped. -/
theorem c6_tokenize_strictly_before_cursor_witness :
    (List.Pairwise (fun a b => a.start ≤ b.start)
      [Token.mk .use_ .noValue 0 3, Token.mk .identifier (.identifier "ieee") 4 8]) ∧
    tokenize_input
        ([Token.mk .use_ .noValue 0 3,
          Token.mk .identifier (.identifier "ieee") 4 8].map PopResult.tok) 4 =
      [Token.mk .use_ .noValue 0 3,
        Token.mk .identifier (.identifier "ieee") 4 8].filter
        (fun t => t.start < 4) :=
  ⟨by decide,
   (c6_tokenize_strictly_before_cursor
      [Token.mk .use_ .noValue 0 3, Token.mk .identifier (.identifier "ieee") 4 8]
      4 (by decide)).1⟩

/-- If the tokenizer reports an error after a prefix of tokens that all start
before the cursor, the tokenizer loop discards everything. -/
theorem tokenize_go_err (cursor : Nat) :
    ∀ (pre post : List PopResult) (acc : List Token),
      (∀ r ∈ pre, ∃ t, r = PopResult.tok t ∧ t.start < cursor) →
      tokenize_go (pre ++ PopResult.err :: post) cursor acc = [] := by
  intro pre
  induction pre with
  | nil =>
    intro post acc _
    simp [tokenize_go]
  | cons r pre ih =>
    intro post acc h
    obtain ⟨t, rfl, hlt⟩ := h r (List.mem_cons_self r pre)
    have hne : ¬ t.start ≥ cursor := by omega
    simp only [List.cons_append, tokenize_go, if_neg hne]
    exact ih post (acc ++ [t]) (fun q hq => h q (List.mem_cons_of_mem _ hq))

/-- C7: `list_completion_options` returns the empty list (it is total, hence
never an error) whenever the tokenizer reports an error before the cursor
cut-off, the trailing token sequence matches none of the recognized tail
patterns, the named library is not registered with the library manager, or
the named primary unit does not exist in that library. -/
theorem c7_empty_on_failure (root : DesignRoot) (stream : List PopResult)
    (cursor : Nat) :
    (∀ pre post, stream = pre ++ PopResult.err :: post →
      (∀ r ∈ pre, ∃ t, r = PopResult.tok t ∧ t.start < cursor) →
      root.list_completion_options stream cursor = []) ∧
    (match_tail (tokenize_input stream cursor) = TailMatch.noMatch →
      root.list_completion_options stream cursor = []) ∧
    (∀ library, match_tail (tokenize_input stream cursor) = TailMatch.primaries library →
      root.get_library_units library = none →
      root.list_completion_options stream cursor = []) ∧
    (∀ library selected,
      match_tail (tokenize_input stream cursor) = TailMatch.decls library selected →
      root.get_library_units library = none →
      root.list_completion_options stream cursor = []) ∧
    (∀ library selected units,
      match_tail (tokenize_input stream cursor) = TailMatch.decls library selected →
      root.get_library_units library = some units →
      units.find? (fun q => q.1 == UnitKey.primary selected) = none →
      root.list_completion_options stream cursor = []) := by
  refine ⟨?_, ?_, ?_, ?_, ?_⟩
  · intro pre post hs hpre
    subst hs
    have ht : tokenize_input (pre ++ PopResult.err :: post) cursor = [] :=
      tokenize_go_err cursor pre post [] hpre
    simp only [DesignRoot.list_completion_options, ht]
    rfl
  · intro h
    simp only [DesignRoot.list_completion_options, h]
  · intro library h hnone
    simp only [DesignRoot.list_completion_options, h]
    simp [DesignRoot.list_primaries_for_lib, hnone]
  · intro library selected h hnone
    simp only [DesignRoot.list_completion_options, h]
    simp [DesignRoot.list_available_declarations, hnone]
  · intro library selected units h hsome hfind
    simp only [DesignRoot.list_completion_options, h]
    simp [DesignRoot.list_available_declarations, hsome, hfind]

/-- Witness for C7: a concrete query naming a library that is not registered
yields the empty list. -/
theorem c7_empty_on_failure_witness :
    sampleRoot.list_completion_options sampleStreamUnknownLib 100 = [] :=
  (c7_empty_on_failure sampleRoot sampleStreamUnknownLib 100).2.2.1 "nolib"
    (by decide) (by decide)

/-- One `search_region` step either keeps the state or accepts the new
region, which then contains the cursor. -/
theorem search_region_cases (cursor : Nat) (st : Option (RegionCategory × RegionRange))
    (r : RegionRange) (k : RegionCategory) :
    search_region cursor st r k = st ∨
      (search_region cursor st r k = some (k, r) ∧ r.contains cursor = true) := by
  unfold search_region
  split
  · split
    · split
      · exact Or.inr ⟨rfl, by assumption⟩
      · exact Or.inl rfl
    · exact Or.inr ⟨rfl, by assumption⟩
  · exact Or.inl rfl

/-- A region that does not contain the cursor never changes the state. -/
theorem search_region_not_contains (cursor : Nat)
    (st : Option (RegionCategory × RegionRange)) (r : RegionRange)
    (k : RegionCategory) (hc : r.contains cursor = false) :
    search_region cursor st r k = st := by
  simp [search_region, hc]

/-- Folding `search_region` over region callbacks preserves the invariant:
the state is empty, or holds an accepted region that contains the cursor and
satisfies `W`. -/
theorem foldl_search_region_invariant (cursor : Nat)
    (W : RegionCategory → RegionRange → Prop) :
    ∀ (l : List (RegionRange × RegionCategory))
      (st : Option (RegionCategory × RegionRange)),
      (st = none ∨ ∃ c rng, st = some (c, rng) ∧ rng.contains cursor = true ∧ W c rng) →
      (∀ rk ∈ l, W rk.2 rk.1) →
      (l.foldl (fun s rk => search_region cursor s rk.1 rk.2) st = none ∨
        ∃ c rng,
          l.foldl (fun s rk => search_region cursor s rk.1 rk.2) st = some (c, rng) ∧
          rng.contains cursor = true ∧ W c rng) := by
  intro l
  induction l with
  | nil =>
    intro st hst _
    exact hst
  | cons rk rest ih =>
    intro st hst hW
    rw [List.foldl_cons]
    refine ih (search_region cursor st rk.1 rk.2) ?_
      (fun q hq => hW q (List.mem_cons_of_mem _ hq))
    rcases search_region_cases cursor st rk.1 rk.2 with heq | ⟨heq, hc⟩
    · rw [heq]
      exact hst
    · rw [heq]
      exact Or.inr ⟨rk.2, rk.1, rfl, hc, hW rk (List.mem_cons_self _ _)⟩

/-- Folding over the per-source groups preserves the same invariant when `W`
covers every region of every group belonging to the searched source. -/
theorem foldl_groups_invariant (cursor source : Nat)
    (W : RegionCategory → RegionRange → Prop) :
    ∀ (groups : List (Nat × List (RegionRange × RegionCategory)))
      (st : Option (RegionCategory × RegionRange)),
      (st = none ∨ ∃ c rng, st = some (c, rng) ∧ rng.contains cursor = true ∧ W c rng) →
      (∀ g ∈ groups, g.1 = source → ∀ rk ∈ g.2, W rk.2 rk.1) →
      (groups.foldl
          (fun state g =>
            if g.1 == source then
              g.2.foldl (fun s rk => search_region cursor s rk.1 rk.2) state
            else state) st = none ∨
        ∃ c rng,
          groups.foldl
            (fun state g =>
              if g.1 == source then
                g.2.foldl (fun s rk => search_region cursor s rk.1 rk.2) state
              else state) st = some (c, rng) ∧
          rng.contains cursor = true ∧ W c rng) := by
  intro groups
  induction groups with
  | nil =>
    intro st hst _
    exact hst
  | cons g rest ih =>
    intro st hst hW
    rw [List.foldl_cons]
    by_cases hsrc : g.1 == source
    · rw [if_pos hsrc]
      refine ih _ ?_ (fun q hq hq1 => hW q (List.mem_cons_of_mem _ hq) hq1)
      exact foldl_search_region_invariant cursor W g.2 st hst
        (hW g (List.mem_cons_self _ _) (by simpa using hsrc))
    · rw [if_neg hsrc]
      exact ih st hst (fun q hq hq1 => hW q (List.mem_cons_of_mem _ hq) hq1)

/-- Folding `search_region` over regions none of which contains the cursor
leaves the state unchanged. -/
theorem foldl_search_region_none (cursor : Nat) :
    ∀ (l : List (RegionRange × RegionCategory))
      (st : Option (RegionCategory × RegionRange)),
      (∀ rk ∈ l, rk.1.contains cursor = false) →
      l.foldl (fun s rk => search_region cursor s rk.1 rk.2) st = st := by
  intro l
  induction l with
  | nil =>
    intro st _
    rfl
  | cons rk rest ih =>
    intro st h
    rw [List.foldl_cons,
      search_region_not_contains cursor st rk.1 rk.2 (h rk (List.mem_cons_self _ _))]
    exact ih st (fun q hq => h q (List.mem_cons_of_mem _ hq))

/-- C8 counterexample: a region with exactly the range of the previously
accepted region is accepted by `search_region` (the containment test is not
strict), so the newly accepted region is not strictly nested in the previous
one; the claim's strictness fails. -/
theorem c8_counterexample_not_strict :
    region_at
        [ (0, [ (RegionRange.mk 0 10, RegionCategory.declarativeRegion),
                (RegionRange.mk 0 10, RegionCategory.sequentialStatements) ]) ]
        0 5 =
      some (RegionCategory.sequentialStatements, RegionRange.mk 0 10) ∧
    ¬ strictly_nested (RegionRange.mk 0 10) (RegionRange.mk 0 10) := by
  constructor
  · decide
  · intro h
    exact h.2.2 rfl

/-- C8 (amended): the region locator returns a region that contains the
cursor and comes from the named source; it returns none when the cursor lies
in no region of the named source; and each newly accepted region is nested —
non-strictly: its bounds lie within the previously chosen region's bounds,
equality allowed — within any previously chosen region. -/
theorem c8_region_locator (groups : List (Nat × List (RegionRange × RegionCategory)))
    (source cursor : Nat) :
    (∀ c rng, region_at groups source cursor = some (c, rng) →
      rng.contains cursor = true ∧ ∃ rs, (source, rs) ∈ groups ∧ (rng, c) ∈ rs) ∧
    ((∀ rs, (source, rs) ∈ groups → ∀ rk ∈ rs, rk.1.contains cursor = false) →
      region_at groups source cursor = none) ∧
    (∀ st r k, search_region cursor st r k ≠ st →
      search_region cursor st r k = some (k, r) ∧ r.contains cursor = true ∧
      ∀ c₀ old, st = some (c₀, old) → old.start ≤ r.start ∧ r.stop ≤ old.stop) := by
  refine ⟨?_, ?_, ?_⟩
  · intro c rng hres
    have hinv := foldl_groups_invariant cursor source
      (fun c' rng' => ∃ rs, (source, rs) ∈ groups ∧ (rng', c') ∈ rs)
      groups none (Or.inl rfl) ?_
    · rw [region_at] at hres
      rcases hinv with hnone | ⟨c', rng', heq, hc, rs, hrs, hmem⟩
      · rw [hres] at hnone
        cases hnone
      · rw [hres] at heq
        injection heq with heq
        injection heq with h1 h2
        subst h1
        subst h2
        exact ⟨hc, rs, hrs, hmem⟩
    · intro g hg hg1 rk hrk
      obtain ⟨gs, grs⟩ := g
      simp only at hg1
      subst hg1
      exact ⟨grs, hg, hrk⟩
  · intro hnone
    rw [region_at]
    have : ∀ (gs : List (Nat × List (RegionRange × RegionCategory))),
        (∀ g ∈ gs, g.1 = source → ∀ rk ∈ g.2, rk.1.contains cursor = false) →
        gs.foldl
          (fun state g =>
            if g.1 == source then
              g.2.foldl (fun s rk => search_region cursor s rk.1 rk.2) state
            else state) none = none := by
      intro gs
      induction gs with
      | nil => intro _; rfl
      | cons g rest ih =>
        intro h
        rw [List.foldl_cons]
        by_cases hsrc : g.1 == source
        · rw [if_pos hsrc,
            foldl_search_region_none cursor g.2 none
              (h g (List.mem_cons_self _ _) (by simpa using hsrc))]
          exact ih (fun q hq => h q (List.mem_cons_of_mem _ hq))
        · rw [if_neg hsrc]
          exact ih (fun q hq => h q (List.mem_cons_of_mem _ hq))
    refine this groups ?_
    intro g hg hg1 rk hrk
    obtain ⟨gs, grs⟩ := g
    simp only at hg1
    subst hg1
    exact hnone grs hg rk hrk
  · intro st r k hne
    by_cases hc : r.contains cursor = true
    · cases st with
      | none =>
        refine ⟨?_, hc, ?_⟩
        · unfold search_region
          rw [if_pos hc]
        · intro c₀ old hst
          cases hst
      | some pr =>
        obtain ⟨c₁, old₁⟩ := pr
        by_cases hn : (decide (old₁.start ≤ r.start) && decide (r.stop ≤ old₁.stop)) = true
        · refine ⟨?_, hc, ?_⟩
          · unfold search_region
            rw [if_pos hc]
            exact if_pos hn
          · intro c₀ old hst
            injection hst with hst
            injection hst with h1 h2
            subst h2
            simp only [Bool.and_eq_true, decide_eq_true_eq] at hn
            exact hn
        · exfalso
          apply hne
          unfold search_region
          rw [if_pos hc]
          exact if_neg hn
    · exfalso
      apply hne
      unfold search_region
      exact if_neg hc

/-- Witness for C8 at a concrete traversal: the accepted region contains the
cursor and comes from the searched source. -/
theorem c8_region_locator_witness :
    (RegionRange.mk 2 8).contains 5 = true ∧
    ∃ rs, ((0 : Nat), rs) ∈
        [ ((0 : Nat), [ (RegionRange.mk 0 10, RegionCategory.declarativeRegion),
                        (RegionRange.mk 2 8, RegionCategory.sequentialStatements) ]) ] ∧
      (RegionRange.mk 2 8, RegionCategory.sequentialStatements) ∈ rs :=
  (c8_region_locator
      [ (0, [ (RegionRange.mk 0 10, RegionCategory.declarativeRegion),
              (RegionRange.mk 2 8, RegionCategory.sequentialStatements) ]) ]
      0 5).1 RegionCategory.sequentialStatements (RegionRange.mk 2 8) (by decide)

/-- The first-seen deduplication returns a sublist of its input: the surviving
occurrences keep their relative order. -/
theorem unique_strings_sublist : ∀ l : List String, (unique_strings l).Sublist l := by
  intro l
  induction l using unique_strings.induct with
  | case1 =>
    rw [unique_strings]
  | case2 a l ih =>
    rw [unique_strings]
    exact List.Sublist.cons₂ a (ih.trans (List.filter_sublist l))

/-- The first-seen deduplication keeps exactly the elements of its input. -/
theorem unique_strings_mem : ∀ (l : List String) (a : String),
    a ∈ unique_strings l ↔ a ∈ l := by
  intro l
  induction l using unique_strings.induct with
  | case1 =>
    intro a
    rw [unique_strings]
  | case2 a l ih =>
    intro b
    rw [unique_strings, List.mem_cons, List.mem_cons, ih b, List.mem_filter]
    by_cases hba : b = a
    · subst hba
      simp
    · simp [hba]

/-- The first-seen deduplication has no duplicates. -/
theorem unique_strings_nodup : ∀ l : List String, (unique_strings l).Nodup := by
  intro l
  induction l using unique_strings.induct with
  | case1 =>
    rw [unique_strings]
    exact List.nodup_nil
  | case2 a l ih =>
    rw [unique_strings, List.nodup_cons]
    refine ⟨?_, ih⟩
    intro hmem
    have := (unique_strings_mem _ a).mp hmem
    rw [List.mem_filter] at this
    simp at this

/-- C9: when listing declarations of a package primary unit, subprogram
bodies, use clauses and configuration specifications contribute no string;
objects, files, types, components, attributes, aliases, subprogram
declarations and nested packages contribute their designator; the strings are
deduplicated preserving first-seen order (a duplicate-free sublist with the
same members) and the string `all` is appended as the last element. -/
theorem c9_package_declaration_strings :
    (∀ s, declaration_to_string (Declaration.object s) = some s) ∧
    (∀ s, declaration_to_string (Declaration.file s) = some s) ∧
    (∀ s, declaration_to_string (Declaration.typeDecl s) = some s) ∧
    (∀ s, declaration_to_string (Declaration.component s) = some s) ∧
    (∀ s, declaration_to_string (Declaration.attributeSpec s) = some s) ∧
    (∀ s, declaration_to_string (Declaration.attributeDecl s) = some s) ∧
    (∀ s, declaration_to_string (Declaration.aliasDecl s) = some s) ∧
    (∀ s, declaration_to_string (Declaration.subprogramDeclaration s) = some s) ∧
    (∀ s, declaration_to_string (Declaration.package s) = some s) ∧
    declaration_to_string Declaration.subprogramBody = none ∧
    declaration_to_string Declaration.use_ = none ∧
    declaration_to_string Declaration.configuration = none ∧
    (∀ (root : DesignRoot) (lib prim : String) units decl,
      root.get_library_units lib = some units →
      (units.find? (fun q => q.1 == UnitKey.primary prim)).map (fun q => q.2) =
        some (AnyDesignUnit.primaryPackage decl) →
      root.list_available_declarations lib prim =
        unique_strings (decl.filterMap declaration_to_string) ++ ["all"]) ∧
    (∀ l : List String, (unique_strings l).Sublist l ∧ (unique_strings l).Nodup ∧
      ∀ a, a ∈ unique_strings l ↔ a ∈ l) := by
  refine ⟨fun s => rfl, fun s => rfl, fun s => rfl, fun s => rfl, fun s => rfl,
    fun s => rfl, fun s => rfl, fun s => rfl, fun s => rfl, rfl, rfl, rfl, ?_, ?_⟩
  · intro root lib prim units decl h1 h2
    simp [DesignRoot.list_available_declarations, h1, h2]
  · intro l
    exact ⟨unique_strings_sublist l, unique_strings_nodup l, unique_strings_mem l⟩

/-- Witness for C9 at the concrete sample package. -/
theorem c9_package_declaration_strings_witness :
    sampleRoot.list_available_declarations "ieee" "std_logic_1164" =
      unique_strings
        ([ Declaration.typeDecl "std_ulogic",
           Declaration.subprogramDeclaration "resolved",
           Declaration.subprogramBody,
           Declaration.typeDecl "std_ulogic" ].filterMap declaration_to_string) ++
      ["all"] :=
  c9_package_declaration_strings.2.2.2.2.2.2.2.2.2.2.2.2.1 sampleRoot "ieee"
    "std_logic_1164"
    [ (UnitKey.primary "std_logic_1164",
       AnyDesignUnit.primaryPackage
         [ Declaration.typeDecl "std_ulogic",
           Declaration.subprogramDeclaration "resolved",
           Declaration.subprogramBody,
           Declaration.typeDecl "std_ulogic" ]) ]
    [ Declaration.typeDecl "std_ulogic",
      Declaration.subprogramDeclaration "resolved",
      Declaration.subprogramBody,
      Declaration.typeDecl "std_ulogic" ]
    (by decide) (by decide)
